import Mathlib

/-!
Verification of the account-resolution and normalization core of the
`plugin-whatsapp` repository (`elizaos_plugin_whatsapp/accounts.py` and
`elizaos_plugin_whatsapp/normalize.py`), shallowly embedded in Lean.

Conventions of the embedding:
* Python strings are Lean `String`s; character-level work happens on
  `List Char`.  Character classes (`str.strip`, regex `\s`, `\d`,
  `str.lower`) are modelled for the ASCII range, which covers every
  identifier, token and policy string the code manipulates.
* Python functions that can raise (the `pydantic` model constructors
  validate their fields and raise `ValidationError` on a mismatch) are
  embedded as `Except String _`; total functions stay total.
* Python dictionaries are association lists (`List (String × _)`) in
  insertion order, which is also Python's iteration order.
-/

set_option autoImplicit false

deriving instance DecidableEq for Except

namespace WhatsApp

/-! ## Python string primitives -/

/-- Python whitespace for `str.strip` / regex `\s` (ASCII range):
space, tab, newline, carriage return, vertical tab, form feed. -/
def pyIsSpace (c : Char) : Bool :=
  c = ' ' || c = '\t' || c = '\n' || c = '\r' ||
  c = Char.ofNat 11 || c = Char.ofNat 12

/-- `str.lstrip()` on a character list. -/
def lstripC (l : List Char) : List Char := l.dropWhile pyIsSpace

/-- `str.rstrip()` on a character list. -/
def rstripC (l : List Char) : List Char := (l.reverse.dropWhile pyIsSpace).reverse

/-- `str.strip()` on a character list. -/
def stripC (l : List Char) : List Char := rstripC (lstripC l)

/-- `str.strip()`. -/
def pyStrip (s : String) : String := ⟨stripC s.data⟩

/-- `str.lower()` (ASCII). -/
def pyLower (s : String) : String := ⟨s.data.map Char.toLower⟩

/-- Regex `\d` (ASCII digits). -/
def pyIsDigit (c : Char) : Bool := c.isDigit

/-! ## `normalize.py`: E.164 normalization

`normalize_e164` applies two `re.sub` passes: the first removes
`[\s\-(). ]+`, the second removes `[^\d+]`.  Their composition keeps
exactly the characters that are digits or `+` (every `+`, wherever it
occurs), which is how it is embedded here. -/

/-- `normalize_e164` from `normalize.py`. -/
def normalize_e164 (input_ : String) : String :=
  let digits_only : List Char := input_.data.filter (fun c => pyIsDigit c || c = '+')
  if digits_only = [] then ""
  else if digits_only.head? = some '+' then ⟨digits_only⟩
  else if digits_only.take 2 = ['0', '0'] then ⟨'+' :: digits_only.drop 2⟩
  else if 10 ≤ digits_only.length then ⟨'+' :: digits_only⟩
  else ⟨digits_only⟩

/-- The claim's reading of `normalize_e164` (claim C3): every non-digit
character is removed *except a leading* `+`, and the `≥ 10` threshold
counts digits only.  Kept separate so it can be compared with the
source-derived `normalize_e164`. -/
def normalizeE164ClaimSpec (input_ : String) : String :=
  let kept : List Char :=
    match input_.data.filter (fun c => pyIsDigit c || c = '+') with
    | '+' :: rest => '+' :: rest.filter pyIsDigit
    | l => l.filter pyIsDigit
  if kept = [] then ""
  else if kept.head? = some '+' then ⟨kept⟩
  else if kept.take 2 = ['0', '0'] then ⟨'+' :: kept.drop 2⟩
  else if 10 ≤ (kept.filter pyIsDigit).length then ⟨'+' :: kept⟩
  else ⟨kept⟩

/-- The amended reading of `normalize_e164`: all `+` signs are retained
(not only a leading one) and the `≥ 10` threshold counts the whole
retained string, `+` signs included. -/
def normalizeE164AmendedSpec (input_ : String) : String :=
  match input_.data.filter (fun c => pyIsDigit c || c = '+') with
  | [] => ""
  | '+' :: rest => ⟨'+' :: rest⟩
  | '0' :: '0' :: rest => ⟨'+' :: rest⟩
  | c :: rest =>
    if 10 ≤ (c :: rest).length then ⟨'+' :: c :: rest⟩ else ⟨c :: rest⟩

/-! ## `accounts.py`: configuration data model

The `pydantic` models, with their field types.  The two policy fields
are `Literal[...] | None` in the source; they are embedded as
`Option String` — the membership restriction is enforced by the
validators below, exactly where `pydantic` enforces it (at model
construction), so that the standalone policy evaluators can still be
studied on arbitrary strings, as the source functions can. -/

/-- `str | int` allowlist entries (`allowFrom` / `groupAllowFrom`). -/
inductive StrOrInt where
  | str (s : String)
  | int (n : Int)
deriving DecidableEq

/-- Python `str(x)` on an allowlist entry. -/
def StrOrInt.toStr : StrOrInt → String
  | .str s => s
  | .int n => toString n

/-- `WhatsAppGroupRuntimeConfig`. -/
structure WhatsAppGroupRuntimeConfig where
  enabled : Option Bool := none
  allow_from : Option (List StrOrInt) := none
  require_mention : Option Bool := none
  system_prompt : Option String := none
  skills : Option (List String) := none
deriving DecidableEq

/-- `WhatsAppAccountRuntimeConfig`. -/
structure WhatsAppAccountRuntimeConfig where
  name : Option String := none
  enabled : Option Bool := none
  access_token : Option String := none
  phone_number_id : Option String := none
  business_account_id : Option String := none
  webhook_verify_token : Option String := none
  api_version : Option String := none
  allow_from : Option (List StrOrInt) := none
  group_allow_from : Option (List StrOrInt) := none
  dm_policy : Option String := none
  group_policy : Option String := none
  media_max_mb : Option Int := none
  text_chunk_limit : Option Int := none
  groups : Option (List (String × WhatsAppGroupRuntimeConfig)) := none
deriving DecidableEq

/-- `WhatsAppMultiAccountConfig`. -/
structure WhatsAppMultiAccountConfig where
  enabled : Option Bool := none
  access_token : Option String := none
  phone_number_id : Option String := none
  business_account_id : Option String := none
  webhook_verify_token : Option String := none
  api_version : Option String := none
  dm_policy : Option String := none
  group_policy : Option String := none
  media_max_mb : Option Int := none
  text_chunk_limit : Option Int := none
  accounts : Option (List (String × WhatsAppAccountRuntimeConfig)) := none
  groups : Option (List (String × WhatsAppGroupRuntimeConfig)) := none
deriving DecidableEq

/-- `WhatsAppTokenSource` (enum values `config / env / character / none`). -/
inductive WhatsAppTokenSource where
  | config
  | env
  | character
  | none
deriving DecidableEq

/-- `WhatsAppTokenResolution`. -/
structure WhatsAppTokenResolution where
  token : String
  source : WhatsAppTokenSource
deriving DecidableEq

/-- `ResolvedWhatsAppAccount`. -/
structure ResolvedWhatsAppAccount where
  account_id : String
  enabled : Bool
  name : Option String
  access_token : String
  phone_number_id : String
  business_account_id : Option String
  token_source : WhatsAppTokenSource
  configured : Bool
  config : WhatsAppAccountRuntimeConfig
deriving DecidableEq

/-! ## Raw configuration values and the agent runtime

`character.settings.whatsapp` is an untyped nested structure; it is
embedded as `RawVal`.  The runtime offers the two capabilities the
source uses: `get_setting` and the (already safely extracted, see
`_get_character_whatsapp`, which cannot raise) `whatsapp` sub-object of
the character settings. -/

/-- An untyped Python value, as found in the character configuration. -/
inductive RawVal where
  | null
  | str (s : String)
  | int (n : Int)
  | bool (b : Bool)
  | list (xs : List RawVal)
  | dict (xs : List (String × RawVal))

/-- The minimal `AgentRuntime` protocol: a settings lookup plus the
result of `_get_character_whatsapp` (the `character.settings.whatsapp`
mapping when present and a mapping, otherwise `none`). -/
structure AgentRuntime where
  character_whatsapp : Option (List (String × RawVal))
  get_setting : String → Option String

/-- Python `dict.get` on an association list. -/
def rawGet (xs : List (String × RawVal)) (k : String) : Option RawVal :=
  (xs.find? (fun p => p.1 = k)).map (fun p => p.2)

/-- `dict.get` on a typed association list. -/
def assocGet {α : Type} (xs : List (String × α)) (k : String) : Option α :=
  (xs.find? (fun p => p.1 = k)).map (fun p => p.2)

/-! ### Field validation (`pydantic`)

Constructing a `pydantic` model validates every field and raises
`ValidationError` on a mismatch.  The validators below embed that for
the canonical value shapes (a string for a `str` field, a boolean for a
`bool` field, an integer for an `int` field, a mapping for a nested
model...).  `pydantic`'s lax mode additionally coerces a few non-
canonical shapes (for instance the string `"true"` for a `bool` field);
such values are rejected here, which only narrows the domain on which
the success theorems speak — the error results used below (a policy
string outside its `Literal[...]` set) are rejections in `pydantic`
too. -/

/-- Validate a `str | None` field. -/
def vOptStr : Option RawVal → Except String (Option String)
  | Option.none => .ok none
  | some .null => .ok none
  | some (.str s) => .ok (some s)
  | some _ => .error "string field: unexpected shape"

/-- Validate a `bool | None` field. -/
def vOptBool : Option RawVal → Except String (Option Bool)
  | Option.none => .ok none
  | some .null => .ok none
  | some (.bool b) => .ok (some b)
  | some _ => .error "bool field: unexpected shape"

/-- Validate an `int | None` field. -/
def vOptInt : Option RawVal → Except String (Option Int)
  | Option.none => .ok none
  | some .null => .ok none
  | some (.int n) => .ok (some n)
  | some _ => .error "int field: unexpected shape"

/-- Validate a `Literal[...] | None` policy field: the value must be one
of the allowed literal strings. -/
def vPolicy (allowed : List String) : Option RawVal → Except String (Option String)
  | Option.none => .ok none
  | some .null => .ok none
  | some (.str s) =>
    if s ∈ allowed then .ok (some s) else .error "policy field: unexpected value"
  | some _ => .error "policy field: unexpected shape"

/-- The `Literal` set of `dmPolicy`. -/
def dmPolicyLiterals : List String := ["open", "allowlist", "pairing", "disabled"]

/-- The `Literal` set of `groupPolicy`. -/
def groupPolicyLiterals : List String := ["open", "allowlist", "disabled"]

/-- Element-wise validation of a list, stopping at the first failure
(`pydantic` raises one `ValidationError` for the whole construction). -/
def mapExcept {α β : Type} (f : α → Except String β) : List α → Except String (List β)
  | [] => .ok []
  | x :: xs => do
    let y ← f x
    let ys ← mapExcept f xs
    .ok (y :: ys)

/-- Validate a `list[str | int] | None` field. -/
def vAllowList : Option RawVal → Except String (Option (List StrOrInt))
  | Option.none => .ok none
  | some .null => .ok none
  | some (.list xs) => do
    let l ← mapExcept (fun v =>
      match v with
      | .str s => .ok (StrOrInt.str s)
      | .int n => .ok (StrOrInt.int n)
      | _ => .error "allowlist entry: unexpected shape") xs
    .ok (some l)
  | some _ => .error "allowlist field: unexpected shape"

/-- Validate a `list[str] | None` field. -/
def vOptStrList : Option RawVal → Except String (Option (List String))
  | Option.none => .ok none
  | some .null => .ok none
  | some (.list xs) => do
    let l ← mapExcept (fun v =>
      match v with
      | .str s => Except.ok s
      | _ => Except.error "string list entry: unexpected shape") xs
    .ok (some l)
  | some _ => .error "string list field: unexpected shape"

/-- Validate one group entry (a nested `WhatsAppGroupRuntimeConfig`). -/
def vGroupCfg : RawVal → Except String WhatsAppGroupRuntimeConfig
  | .dict xs => do
    let enabled ← vOptBool (rawGet xs "enabled")
    let allow_from ← vAllowList (rawGet xs "allowFrom")
    let require_mention ← vOptBool (rawGet xs "requireMention")
    let system_prompt ← vOptStr (rawGet xs "systemPrompt")
    let skills ← vOptStrList (rawGet xs "skills")
    .ok ⟨enabled, allow_from, require_mention, system_prompt, skills⟩
  | _ => .error "group config: expected a mapping"

/-- Validate a `dict[str, WhatsAppGroupRuntimeConfig] | None` field. -/
def vGroups : Option RawVal → Except String (Option (List (String × WhatsAppGroupRuntimeConfig)))
  | Option.none => .ok none
  | some .null => .ok none
  | some (.dict xs) => do
    let l ← mapExcept (fun p => (vGroupCfg p.2).map (fun g => (p.1, g))) xs
    .ok (some l)
  | some _ => .error "groups field: expected a mapping"

/-- Validate one account entry (a nested `WhatsAppAccountRuntimeConfig`). -/
def vAccountCfg : RawVal → Except String WhatsAppAccountRuntimeConfig
  | .dict xs => do
    let name ← vOptStr (rawGet xs "name")
    let enabled ← vOptBool (rawGet xs "enabled")
    let access_token ← vOptStr (rawGet xs "accessToken")
    let phone_number_id ← vOptStr (rawGet xs "phoneNumberId")
    let business_account_id ← vOptStr (rawGet xs "businessAccountId")
    let webhook_verify_token ← vOptStr (rawGet xs "webhookVerifyToken")
    let api_version ← vOptStr (rawGet xs "apiVersion")
    let allow_from ← vAllowList (rawGet xs "allowFrom")
    let group_allow_from ← vAllowList (rawGet xs "groupAllowFrom")
    let dm_policy ← vPolicy dmPolicyLiterals (rawGet xs "dmPolicy")
    let group_policy ← vPolicy groupPolicyLiterals (rawGet xs "groupPolicy")
    let media_max_mb ← vOptInt (rawGet xs "mediaMaxMb")
    let text_chunk_limit ← vOptInt (rawGet xs "textChunkLimit")
    let groups ← vGroups (rawGet xs "groups")
    .ok ⟨name, enabled, access_token, phone_number_id, business_account_id,
         webhook_verify_token, api_version, allow_from, group_allow_from,
         dm_policy, group_policy, media_max_mb, text_chunk_limit, groups⟩
  | _ => .error "account config: expected a mapping"

/-- Validate a `dict[str, WhatsAppAccountRuntimeConfig] | None` field. -/
def vAccounts : Option RawVal → Except String (Option (List (String × WhatsAppAccountRuntimeConfig)))
  | Option.none => .ok none
  | some .null => .ok none
  | some (.dict xs) => do
    let l ← mapExcept (fun p => (vAccountCfg p.2).map (fun a => (p.1, a))) xs
    .ok (some l)
  | some _ => .error "accounts field: expected a mapping"

/-! ## `accounts.py`: resolution functions -/

/-- `DEFAULT_ACCOUNT_ID`. -/
def DEFAULT_ACCOUNT_ID : String := "default"

/-- `normalize_account_id` (the argument is `str | None`). -/
def normalize_account_id (account_id : Option String) : String :=
  match account_id with
  | Option.none => DEFAULT_ACCOUNT_ID
  | some s =>
    if s = "" then DEFAULT_ACCOUNT_ID
    else
      let trimmed := pyLower (pyStrip s)
      if trimmed = "" ∨ trimmed = "default" then DEFAULT_ACCOUNT_ID else trimmed

/-- `get_multi_account_config`: builds a `WhatsAppMultiAccountConfig`
from `character.settings.whatsapp`.  The `pydantic` construction
validates every field, hence the `Except`. -/
def get_multi_account_config (runtime : AgentRuntime) :
    Except String WhatsAppMultiAccountConfig :=
  match runtime.character_whatsapp with
  | Option.none => .ok {}
  | some wa =>
    if wa.isEmpty then .ok {}
    else do
      let enabled ← vOptBool (rawGet wa "enabled")
      let access_token ← vOptStr (rawGet wa "accessToken")
      let phone_number_id ← vOptStr (rawGet wa "phoneNumberId")
      let business_account_id ← vOptStr (rawGet wa "businessAccountId")
      let webhook_verify_token ← vOptStr (rawGet wa "webhookVerifyToken")
      let api_version ← vOptStr (rawGet wa "apiVersion")
      let dm_policy ← vPolicy dmPolicyLiterals (rawGet wa "dmPolicy")
      let group_policy ← vPolicy groupPolicyLiterals (rawGet wa "groupPolicy")
      let media_max_mb ← vOptInt (rawGet wa "mediaMaxMb")
      let text_chunk_limit ← vOptInt (rawGet wa "textChunkLimit")
      let accounts ← vAccounts (rawGet wa "accounts")
      let groups ← vGroups (rawGet wa "groups")
      .ok ⟨enabled, access_token, phone_number_id, business_account_id,
           webhook_verify_token, api_version, dm_policy, group_policy,
           media_max_mb, text_chunk_limit, accounts, groups⟩

/-- `_get_account_config`, working on an already validated
multi-account configuration (the values of the validated `accounts`
mapping are model instances, always truthy in Python): direct key
match first, then the first key equal after `normalize_account_id`. -/
def lookupAccountConfig (config : WhatsAppMultiAccountConfig) (account_id : String) :
    Option WhatsAppAccountRuntimeConfig :=
  match config.accounts with
  | Option.none => none
  | some accounts =>
    match assocGet accounts account_id with
    | some direct => some direct
    | Option.none =>
      let normalized := normalize_account_id (some account_id)
      (accounts.find? (fun p => normalize_account_id (some p.1) = normalized)).map
        (fun p => p.2)

/-- `_get_account_config` as called on a runtime. -/
def get_account_config (runtime : AgentRuntime) (account_id : String) :
    Except String (Option WhatsAppAccountRuntimeConfig) :=
  (get_multi_account_config runtime).map (fun mc => lookupAccountConfig mc account_id)

/-- The pure core of `resolve_whatsapp_token`, once the multi-account
configuration is available (`env_token` is
`runtime.get_setting "WHATSAPP_ACCESS_TOKEN"`). -/
def resolveTokenCore (multi_config : WhatsAppMultiAccountConfig)
    (env_token : Option String) (account_id : String) : WhatsAppTokenResolution :=
  let account_config := lookupAccountConfig multi_config account_id
  let acct_token := (account_config.bind (fun c => c.access_token)).getD ""
  if pyStrip acct_token ≠ "" then
    ⟨pyStrip acct_token, .config⟩
  else if account_id = DEFAULT_ACCOUNT_ID then
    let base_token := multi_config.access_token.getD ""
    if pyStrip base_token ≠ "" then
      ⟨pyStrip base_token, .config⟩
    else
      let env := env_token.getD ""
      if pyStrip env ≠ "" then ⟨pyStrip env, .env⟩
      else ⟨"", .none⟩
  else ⟨"", .none⟩

/-- `resolve_whatsapp_token`. -/
def resolve_whatsapp_token (runtime : AgentRuntime) (account_id : String) :
    Except String WhatsAppTokenResolution :=
  (get_multi_account_config runtime).map
    (fun mc => resolveTokenCore mc (runtime.get_setting "WHATSAPP_ACCESS_TOKEN") account_id)

/-- Re-validation of a policy field on an already stringly-typed merged
value (the merged dictionary is fed back to the model constructor). -/
def vPolicyStrMerge (allowed : List String) : Option String → Except String (Option String)
  | Option.none => .ok none
  | some s =>
    if s ∈ allowed then .ok (some s) else .error "policy field: unexpected value"

/-- Python `x or None` on an optional string (an empty string collapses
to `None`), used for the environment settings in the merge. -/
def orNoneStr : Option String → Option String
  | Option.none => none
  | some s => if s = "" then none else some s

/-- `_merge_whatsapp_account_config`: merge `env < base < account` by
overwrite-if-defined (`_filter_defined` drops `None` values, so a later
layer's key wins exactly when its value is non-`None`, which is `<|>`
with the account layer first).  The merged dictionary is passed back
through the `WhatsAppAccountRuntimeConfig` constructor, which
re-validates the two policy fields — the only fields whose merged value
can carry an environment string that `pydantic` has not seen yet. -/
def merge_whatsapp_account_config (runtime : AgentRuntime) (account_id : String) :
    Except String WhatsAppAccountRuntimeConfig := do
  let multi_config ← get_multi_account_config runtime
  let account_config := (lookupAccountConfig multi_config account_id).getD {}
  let env_token := orNoneStr (runtime.get_setting "WHATSAPP_ACCESS_TOKEN")
  let env_phone := orNoneStr (runtime.get_setting "WHATSAPP_PHONE_NUMBER_ID")
  let env_business := orNoneStr (runtime.get_setting "WHATSAPP_BUSINESS_ACCOUNT_ID")
  let env_webhook := orNoneStr (runtime.get_setting "WHATSAPP_WEBHOOK_VERIFY_TOKEN")
  let env_dm_policy := orNoneStr (runtime.get_setting "WHATSAPP_DM_POLICY")
  let env_group_policy := orNoneStr (runtime.get_setting "WHATSAPP_GROUP_POLICY")
  let dm_policy ← vPolicyStrMerge dmPolicyLiterals
    (account_config.dm_policy <|> multi_config.dm_policy <|> env_dm_policy)
  let group_policy ← vPolicyStrMerge groupPolicyLiterals
    (account_config.group_policy <|> multi_config.group_policy <|> env_group_policy)
  .ok { name := account_config.name
        enabled := account_config.enabled <|> multi_config.enabled
        access_token := account_config.access_token <|> multi_config.access_token <|> env_token
        phone_number_id :=
          account_config.phone_number_id <|> multi_config.phone_number_id <|> env_phone
        business_account_id :=
          account_config.business_account_id <|> multi_config.business_account_id <|> env_business
        webhook_verify_token :=
          account_config.webhook_verify_token <|> multi_config.webhook_verify_token <|> env_webhook
        api_version := account_config.api_version <|> multi_config.api_version
        allow_from := account_config.allow_from
        group_allow_from := account_config.group_allow_from
        dm_policy := dm_policy
        group_policy := group_policy
        media_max_mb := account_config.media_max_mb <|> multi_config.media_max_mb
        text_chunk_limit := account_config.text_chunk_limit <|> multi_config.text_chunk_limit
        groups := account_config.groups <|> multi_config.groups }

/-- Shortening of nullable strings in `resolve_whatsapp_account`:
`(x.strip() if x else None) or None`. -/
def strippedOrNone : Option String → Option String
  | Option.none => none
  | some s =>
    if s = "" then none
    else if pyStrip s = "" then none else some (pyStrip s)

/-- `resolve_whatsapp_account`. -/
def resolve_whatsapp_account (runtime : AgentRuntime) (account_id : Option String) :
    Except String ResolvedWhatsAppAccount := do
  let normalized_id := normalize_account_id account_id
  let multi_config ← get_multi_account_config runtime
  let base_enabled := multi_config.enabled ≠ some false
  let merged ← merge_whatsapp_account_config runtime normalized_id
  let account_enabled := merged.enabled ≠ some false
  let enabled := base_enabled ∧ account_enabled
  let resolution :=
    resolveTokenCore multi_config (runtime.get_setting "WHATSAPP_ACCESS_TOKEN") normalized_id
  let phone_number_id := pyStrip (merged.phone_number_id.getD "")
  let configured := resolution.token ≠ "" ∧ phone_number_id ≠ ""
  .ok { account_id := normalized_id
        enabled := decide enabled
        name := strippedOrNone merged.name
        access_token := resolution.token
        phone_number_id := phone_number_id
        business_account_id := strippedOrNone merged.business_account_id
        token_source := resolution.source
        configured := decide configured
        config := merged }

/-- `resolve_whatsapp_group_config`: account-level groups first (a miss
inside a present account-level map falls through), then base-level
groups, else `None`. -/
def resolve_whatsapp_group_config (runtime : AgentRuntime)
    (account_id : String) (group_id : String) :
    Except String (Option WhatsAppGroupRuntimeConfig) := do
  let multi_config ← get_multi_account_config runtime
  let account_config := lookupAccountConfig multi_config account_id
  let from_account :=
    match account_config.bind (fun c => c.groups) with
    | some gs => assocGet gs group_id
    | Option.none => none
  match from_account with
  | some g => .ok (some g)
  | Option.none =>
    match multi_config.groups with
    | some gs => .ok (assocGet gs group_id)
    | Option.none => .ok none

/-! ## `accounts.py`: policy evaluators -/

/-- Python `x or default` on an optional policy string: `None` and the
empty string both fall back. -/
def orDefault (o : Option String) (d : String) : String :=
  match o with
  | Option.none => d
  | some s => if s = "" then d else s

/-- `is_whatsapp_user_allowed` (the `group_id` parameter exists in the
source signature but is unused by its body). -/
def is_whatsapp_user_allowed (identifier : String)
    (account_config : WhatsAppAccountRuntimeConfig) (is_group : Bool)
    (group_id : Option String := none)
    (group_config : Option WhatsAppGroupRuntimeConfig := none) : Bool :=
  if is_group then
    let policy := orDefault account_config.group_policy "allowlist"
    if policy = "disabled" then false
    else if policy = "open" then true
    else
      let group_allow := (group_config.bind (fun g => g.allow_from)).getD []
      if ¬ group_allow.isEmpty then
        group_allow.any (fun a => a.toStr = identifier)
      else
        let account_allow := account_config.group_allow_from.getD []
        if ¬ account_allow.isEmpty then
          account_allow.any (fun a => a.toStr = identifier)
        else policy ≠ "allowlist"
  else
    let policy := orDefault account_config.dm_policy "pairing"
    if policy = "disabled" then false
    else if policy = "open" then true
    else if policy = "pairing" then true
    else
      let allow := account_config.allow_from.getD []
      if ¬ allow.isEmpty then allow.any (fun a => a.toStr = identifier)
      else false

/-- `is_whatsapp_group_allowed`. -/
def is_whatsapp_group_allowed (group_id : String)
    (account_config : WhatsAppAccountRuntimeConfig)
    (group_config : Option WhatsAppGroupRuntimeConfig := none) : Bool :=
  let policy := orDefault account_config.group_policy "allowlist"
  if policy = "disabled" then false
  else if policy = "open" then true
  else
    match group_config with
    | some gc => gc.enabled ≠ some false
    | Option.none =>
      let account_allow := account_config.group_allow_from.getD []
      if ¬ account_allow.isEmpty then
        account_allow.any (fun a => a.toStr = group_id)
      else policy ≠ "allowlist"

/-! ## `normalize.py`: target prefix stripping and JID parsing -/

/-- One case-insensitive test for the leading `whatsapp:` URI prefix. -/
def hasWaPrefix (l : List Char) : Bool :=
  (l.take 9).map Char.toLower = "whatsapp:".data

/-- The loop of `_strip_whatsapp_target_prefixes`, with explicit fuel.
Every iteration that recurses removes the nine characters of a matched
`whatsapp:` prefix (trimming never adds characters), so `length + 1`
units of fuel always reach the fixpoint. -/
def stripTargetAux : Nat → List Char → List Char
  | 0, l => l
  | fuel + 1, l =>
    if hasWaPrefix l then stripTargetAux fuel (stripC (l.drop 9)) else l

/-- `_strip_whatsapp_target_prefixes`. -/
def strip_whatsapp_target_prefixes (value : String) : String :=
  ⟨stripTargetAux (value.length + 1) (stripC value.data)⟩

/-- List-level suffix test (Python `str.endswith`). -/
def endsWithC (l suffix : List Char) : Bool :=
  l.drop (l.length - suffix.length) = suffix

/-- Split a character list on `-` (Python `str.split("-")` semantics on
a single-character separator). -/
def splitOnDash : List Char → List (List Char)
  | [] => [[]]
  | c :: t =>
    if c = '-' then [] :: splitOnDash t
    else
      match splitOnDash t with
      | h :: rest => (c :: h) :: rest
      | [] => [[c]]

/-- The strict body of `^[0-9]+(-[0-9]+)*$`: dash-separated non-empty
digit runs spanning the whole input. -/
def groupLocalStrict (l : List Char) : Bool :=
  (splitOnDash l).all (fun seg => ¬ seg.isEmpty && seg.all pyIsDigit)

/-- `_GROUP_LOCAL_RE.match` on the local part of a group JID.  Python's
`$` also matches just before a single newline at the very end of the
string, so the pattern accepts the strict form optionally followed by
one final `'\n'` (e.g. the local part of `123\n@g.us`). -/
def groupLocalOk (l : List Char) : Bool :=
  groupLocalStrict l ||
    (l.getLast? = some '\n' && groupLocalStrict l.dropLast)

/-- `is_whatsapp_group_jid`. -/
def is_whatsapp_group_jid (value : String) : Bool :=
  let candidate := strip_whatsapp_target_prefixes value
  if ¬ endsWithC (candidate.data.map Char.toLower) "@g.us".data then false
  else
    let local_part : List Char := candidate.data.take (candidate.length - 5)
    if local_part.isEmpty || local_part.any (fun c => c = '@') then false
    else groupLocalOk local_part

/-- Regex `^(\d+)(?::\d+)?@s\.whatsapp\.net$` (case-insensitive):
returns the leading digit run on a match. -/
def parseUserJidPhone (l : List Char) : Option (List Char) :=
  let digits := l.takeWhile pyIsDigit
  let rest := l.dropWhile pyIsDigit
  if digits.isEmpty then none
  else
    let tail : Option (List Char) :=
      match rest with
      | ':' :: r =>
        if (r.takeWhile pyIsDigit).isEmpty then none
        else some (r.dropWhile pyIsDigit)
      | _ => some rest
    match tail with
    | some r =>
      if r.map Char.toLower = "@s.whatsapp.net".data then some digits else none
    | Option.none => none

/-- Regex `^(\d+)@lid$` (case-insensitive): returns the digit run. -/
def parseLidPhone (l : List Char) : Option (List Char) :=
  let digits := l.takeWhile pyIsDigit
  let rest := l.dropWhile pyIsDigit
  if ¬ digits.isEmpty ∧ rest.map Char.toLower = "@lid".data then some digits
  else none

/-- `is_whatsapp_user_target`. -/
def is_whatsapp_user_target (value : String) : Bool :=
  let candidate := strip_whatsapp_target_prefixes value
  (parseUserJidPhone candidate.data).isSome || (parseLidPhone candidate.data).isSome

/-- `_extract_user_jid_phone`. -/
def extract_user_jid_phone (jid : String) : Option String :=
  match parseUserJidPhone jid.data with
  | some d => some ⟨d⟩
  | Option.none => (parseLidPhone jid.data).map (fun d => ⟨d⟩)

/-- `normalize_whatsapp_target`. -/
def normalize_whatsapp_target (value : String) : Option String :=
  let candidate := strip_whatsapp_target_prefixes value
  if candidate.data.isEmpty then none
  else if is_whatsapp_group_jid candidate then
    some ⟨candidate.data.take (candidate.length - 5) ++ "@g.us".data⟩
  else if is_whatsapp_user_target candidate then
    match extract_user_jid_phone candidate with
    | Option.none => none
    | some phone =>
      let normalized := normalize_e164 phone
      if 1 < normalized.length then some normalized else none
  else if candidate.data.any (fun c => c = '@') then none
  else
    let normalized := normalize_e164 candidate
    if 1 < normalized.length then some normalized else none

/-! ## `normalize.py`: text chunking -/

/-- `WHATSAPP_TEXT_CHUNK_LIMIT`. -/
def WHATSAPP_TEXT_CHUNK_LIMIT : Nat := 4096

/-- One pass of Python `str.rfind`: the highest index at which `sub`
occurs in the scanned list, carried in `best` (`none` models `-1`). -/
def pyRFindAux (sub : List Char) : List Char → Nat → Option Nat → Option Nat
  | [], i, best => if sub.isEmpty then some i else best
  | c :: t, i, best =>
    pyRFindAux sub t (i + 1) (if (c :: t).take sub.length = sub then some i else best)

/-- Python `s.rfind(sub)`; `none` models the result `-1`. -/
def pyRFind (sub : List Char) (s : List Char) : Option Nat :=
  pyRFindAux sub s 0 none

/-- `idx > half` on an `rfind` result (`-1 > half` is always false for
the non-negative `half` used by the source). -/
def hitAfterHalf (found : Option Nat) (half : Nat) : Option Nat :=
  found.bind (fun idx => if half < idx then some idx else none)

/-- `max` of `rfind` results (`-1` modelled by `none`). -/
def maxFound : Option Nat → Option Nat → Option Nat
  | Option.none, b => b
  | a, Option.none => a
  | some x, some y => some (max x y)

/-- `_split_at_break_point`.  The limit is modelled as a natural number
(`int(limit * 0.5)` is `limit / 2` for a non-negative limit). -/
def split_at_break_point (text : List Char) (limit : Nat) : List Char × List Char :=
  if text.length ≤ limit then (text, [])
  else
    let search_area := text.take limit
    let half := limit / 2
    match hitAfterHalf (pyRFind ['\n', '\n'] search_area) half with
    | some idx => (rstripC (text.take idx), lstripC (text.drop (idx + 2)))
    | Option.none =>
    match hitAfterHalf (pyRFind ['\n'] search_area) half with
    | some idx => (rstripC (text.take idx), lstripC (text.drop (idx + 1)))
    | Option.none =>
    let sentence_end :=
      maxFound (pyRFind ['.', ' '] search_area)
        (maxFound (pyRFind ['!', ' '] search_area) (pyRFind ['?', ' '] search_area))
    match hitAfterHalf sentence_end half with
    | some idx => (rstripC (text.take (idx + 1)), lstripC (text.drop (idx + 2)))
    | Option.none =>
    match hitAfterHalf (pyRFind [' '] search_area) half with
    | some idx => (rstripC (text.take idx), lstripC (text.drop (idx + 1)))
    | Option.none => (text.take limit, text.drop limit)

/-- The `while remaining:` loop of `chunk_whatsapp_text`, with explicit
fuel; `none` means the fuel ran out with text still remaining, which is
how the model expresses a non-terminating run of the source loop (for a
positive limit, `remaining.length` units of fuel always suffice, proved
below). -/
def chunkLoop (limit : Nat) : Nat → List Char → Option (List (List Char))
  | 0, remaining => if remaining.isEmpty then some [] else none
  | fuel + 1, remaining =>
    if remaining.isEmpty then some []
    else
      let step := split_at_break_point remaining limit
      match chunkLoop limit fuel step.2 with
      | Option.none => none
      | some rest => some (if step.1.isEmpty then rest else step.1 :: rest)

/-- `chunk_whatsapp_text` (the `limit` argument is `int | None`).
`none` as a result models a non-terminating loop. -/
def chunk_whatsapp_text (text : String) (limit : Option Nat := none) :
    Option (List String) :=
  let effective_limit := limit.getD WHATSAPP_TEXT_CHUNK_LIMIT
  if (pyStrip text).data.isEmpty then some []
  else
    let normalized_text := pyStrip text
    if normalized_text.length ≤ effective_limit then some [normalized_text]
    else
      match chunkLoop effective_limit normalized_text.length normalized_text.data with
      | Option.none => none
      | some chunks => some ((chunks.filter (fun c => ¬ c.isEmpty)).map (fun c => ⟨c⟩))

/-! ## Specification-side definitions

Written from the specification's wording, to be compared with the
source-derived functions. -/

/-- Claim C1's precedence for `resolve_whatsapp_token`: (1) the
named-account-level token, trimmed, when non-empty after trim; else,
for the default account only, (2) the global-layer token and then
(3) the environment token; else (4) the empty token with source
`none`. -/
def resolveTokenClaimSpec (multi_config : WhatsAppMultiAccountConfig)
    (env_token : Option String) (account_id : String) : WhatsAppTokenResolution :=
  let named :=
    pyStrip (((lookupAccountConfig multi_config account_id).bind
      (fun c => c.access_token)).getD "")
  if named ≠ "" then ⟨named, .config⟩
  else if account_id = DEFAULT_ACCOUNT_ID ∧ pyStrip (multi_config.access_token.getD "") ≠ "" then
    ⟨pyStrip (multi_config.access_token.getD ""), .config⟩
  else if account_id = DEFAULT_ACCOUNT_ID ∧ pyStrip (env_token.getD "") ≠ "" then
    ⟨pyStrip (env_token.getD ""), .env⟩
  else ⟨"", .none⟩

/-- Claim C5's direct-message policy: `dmPolicy`-or-`"pairing"`;
`disabled` denies, `open` and `pairing` allow, otherwise (`allowlist`)
stringified membership of the DM allowlist, an absent or empty list
denying. -/
def dmAllowedClaimSpec (account_config : WhatsAppAccountRuntimeConfig)
    (identifier : String) : Bool :=
  let policy := orDefault account_config.dm_policy "pairing"
  if policy = "disabled" then false
  else if policy = "open" ∨ policy = "pairing" then true
  else
    match account_config.allow_from with
    | some l => l.any (fun a => a.toStr = identifier)
    | Option.none => false

/-- Claim C6's group allowance: `groupPolicy`-or-`"allowlist"`;
`disabled` denies and `open` allows regardless of anything else; a
GroupConfig record's enabled flag (not explicitly false) takes
precedence over any allowlist; else membership of a present non-empty
account-level group allowlist; else allow iff the policy is not the
literal `"allowlist"`. -/
def groupAllowedClaimSpec (account_config : WhatsAppAccountRuntimeConfig)
    (group_id : String) (group_config : Option WhatsAppGroupRuntimeConfig) : Bool :=
  let policy := orDefault account_config.group_policy "allowlist"
  if policy = "disabled" then false
  else if policy = "open" then true
  else
    match group_config with
    | some gc => ¬ (gc.enabled = some false)
    | Option.none =>
      match account_config.group_allow_from with
      | some l =>
        if ¬ l.isEmpty then l.any (fun a => a.toStr = group_id)
        else policy ≠ "allowlist"
      | Option.none => policy ≠ "allowlist"

/-! ## Well-formedness predicates for the no-exception analysis -/

/-- `Except` success as a boolean. -/
def exceptOk {α : Type} : Except String α → Bool
  | .ok _ => true
  | .error _ => false

/-- A policy-valued runtime setting is harmless when absent, empty, or
one of the recognized literals. -/
def envPolicyOk (allowed : List String) : Option String → Bool
  | Option.none => true
  | some s => s = "" || allowed.contains s

/-- Both policy-valued environment settings are harmless. -/
def runtimeEnvPoliciesOk (runtime : AgentRuntime) : Bool :=
  envPolicyOk dmPolicyLiterals (runtime.get_setting "WHATSAPP_DM_POLICY") &&
  envPolicyOk groupPolicyLiterals (runtime.get_setting "WHATSAPP_GROUP_POLICY")

/-- Policy fields of one account configuration lie in their `Literal`
sets (an invariant of every validated configuration). -/
def accountPoliciesOk (a : WhatsAppAccountRuntimeConfig) : Bool :=
  (match a.dm_policy with
   | some s => dmPolicyLiterals.contains s
   | Option.none => true) &&
  (match a.group_policy with
   | some s => groupPolicyLiterals.contains s
   | Option.none => true)

/-- Policy fields across a multi-account configuration lie in their
`Literal` sets. -/
def multiPoliciesOk (mc : WhatsAppMultiAccountConfig) : Bool :=
  (match mc.dm_policy with
   | some s => dmPolicyLiterals.contains s
   | Option.none => true) &&
  (match mc.group_policy with
   | some s => groupPolicyLiterals.contains s
   | Option.none => true) &&
  (mc.accounts.getD []).all (fun p => accountPoliciesOk p.2)

/-! ## Concrete runtimes used by the closed witness theorems -/

/-- The specification's account-resolution example: global token
`"base"` plus a named `business` account with its own token. -/
def exampleRuntimeBiz : AgentRuntime where
  character_whatsapp :=
    some [("accessToken", .str "base"),
          ("accounts", .dict [("business",
            .dict [("accessToken", .str "biz"), ("phoneNumberId", .str "123")])])]
  get_setting := fun _ => none

/-- The validated form of `exampleRuntimeBiz`'s configuration. -/
def exampleMultiBiz : WhatsAppMultiAccountConfig :=
  { access_token := some "base"
    accounts := some [("business",
      { access_token := some "biz", phone_number_id := some "123" })] }

/-- The account `exampleRuntimeBiz` resolves for id `business`. -/
def exampleResolvedBiz : ResolvedWhatsAppAccount :=
  { account_id := "business", enabled := true, name := none,
    access_token := "biz", phone_number_id := "123", business_account_id := none,
    token_source := .config, configured := true,
    config := { access_token := some "biz", phone_number_id := some "123" } }

/-- A runtime whose only configuration is an unrecognized
`WHATSAPP_DM_POLICY` environment value. -/
def badPolicyRuntime : AgentRuntime where
  character_whatsapp := none
  get_setting := fun k => if k = "WHATSAPP_DM_POLICY" then some "bogus" else none

/-- A runtime with a global-layer token and an environment token but no
named accounts. -/
def defaultOnlyRuntime : AgentRuntime where
  character_whatsapp := some [("accessToken", .str "base-token")]
  get_setting := fun k =>
    if k = "WHATSAPP_ACCESS_TOKEN" then some "env-token" else none

/-- The validated form of `defaultOnlyRuntime`'s configuration. -/
def defaultOnlyMulti : WhatsAppMultiAccountConfig :=
  { access_token := some "base-token" }

/-! ## Helper lemmas -/

theorem rstripC_eq_rdropWhile (l : List Char) :
    rstripC l = List.rdropWhile pyIsSpace l := rfl

/-- A stripped list has no leading whitespace left. -/
theorem lstripC_stripC (l : List Char) : lstripC (stripC l) = stripC l := by
  unfold stripC
  rcases m : rstripC (lstripC l) with _ | ⟨c, cs⟩
  · simp [lstripC]
  · have hpre : rstripC (lstripC l) <+: lstripC l := by
      rw [rstripC_eq_rdropWhile]; exact List.rdropWhile_prefix _ _
    rw [m] at hpre
    obtain ⟨t, ht⟩ := hpre
    have hx : List.dropWhile pyIsSpace l = c :: (cs ++ t) := by
      show lstripC l = _
      rw [← ht]; simp
    have hidem := List.dropWhile_idempotent pyIsSpace l
    rw [hx, List.dropWhile_cons] at hidem
    have hc : pyIsSpace c = false := by
      by_contra hpc
      rw [Bool.not_eq_false] at hpc
      rw [if_pos hpc] at hidem
      have hlen := congrArg List.length hidem
      rw [List.length_cons] at hlen
      have hle : (List.dropWhile pyIsSpace (cs ++ t)).length ≤ (cs ++ t).length :=
        ((List.dropWhile_suffix (l := cs ++ t) pyIsSpace).sublist).length_le
      omega
    simp [lstripC, List.dropWhile_cons, hc]

/-- Python `strip` is idempotent (character-list level). -/
theorem stripC_idem (l : List Char) : stripC (stripC l) = stripC l := by
  conv_lhs => rw [stripC, lstripC_stripC]
  show List.rdropWhile pyIsSpace (stripC l) = stripC l
  rw [stripC, rstripC_eq_rdropWhile, List.rdropWhile_idempotent]

/-- Python `strip` is idempotent. -/
theorem pyStrip_idem (s : String) : pyStrip (pyStrip s) = pyStrip s := by
  show (⟨stripC (stripC s.data)⟩ : String) = ⟨stripC s.data⟩
  rw [stripC_idem]

/-- The token produced by `resolveTokenCore` is already stripped. -/
theorem resolveTokenCore_token_stripped (mc : WhatsAppMultiAccountConfig)
    (env : Option String) (aid : String) :
    pyStrip (resolveTokenCore mc env aid).token = (resolveTokenCore mc env aid).token := by
  unfold resolveTokenCore
  simp only []
  split_ifs <;> first | decide | simp [pyStrip_idem]

/-- Inversion of a successful `Except` bind. -/
theorem bind_ok {α β : Type} {e : Except String α} {f : α → Except String β} {b : β}
    (h : e.bind f = .ok b) : ∃ a, e = .ok a ∧ f a = .ok b := by
  cases e with
  | ok a => exact ⟨a, rfl, h⟩
  | error msg => simp [Except.bind] at h

/-! ## Claim C3: `normalize_e164` -/

/-- C3 (counterexample): the claim reads `normalize_e164` as removing
every non-digit character *except a leading* `+`; the source keeps
every `+`.  On `"123+456"` the code returns `"123+456"` while the
claim's algorithm returns `"123456"`. -/
theorem C3_normalize_e164_counterexample :
    normalize_e164 "123+456" = "123+456" ∧
    normalizeE164ClaimSpec "123+456" = "123456" ∧
    normalize_e164 "123+456" ≠ normalizeE164ClaimSpec "123+456" := by decide

/-- C3 (amended): `normalize_e164` keeps every digit and every `+`
(wherever it occurs), then: unchanged when the result starts with `+`;
`00` becomes `+`; a `+` is prepended when the retained string (digits
and `+` signs together) has length at least 10; shorter results are
returned unmodified; no usable characters yields the empty string.  The
section-8 examples hold as stated. -/
theorem C3_normalize_e164_amended :
    (∀ s, normalize_e164 s = normalizeE164AmendedSpec s) ∧
    normalize_e164 "+1 (234) 567.8901" = "+12345678901" ∧
    normalize_e164 "0012345678901" = "+12345678901" ∧
    normalize_e164 "123456789" = "123456789" ∧
    normalize_e164 "" = "" := by
  refine ⟨fun s => ?_, by decide, by decide, by decide, by decide⟩
  unfold normalize_e164 normalizeE164AmendedSpec
  simp only []
  generalize s.data.filter (fun c => pyIsDigit c || c = '+') = l
  rcases l with _ | ⟨c, rest⟩
  · rfl
  · rcases rest with _ | ⟨c2, rest2⟩
    · by_cases hc : c = '+'
      · subst hc; rfl
      · simp [hc]
    · by_cases hc : c = '+'
      · subst hc; rfl
      · by_cases h00 : c = '0' ∧ c2 = '0'
        · obtain ⟨rfl, rfl⟩ := h00; rfl
        · simp [hc, h00]
          split <;> rename_i hlen <;>
            (split
             · rename_i heq; simp at heq
             · rename_i heq; injection heq with e1 e2; exact absurd e1 hc
             · rename_i heq
               injection heq with e1 e2
               injection e2 with e2a e2b
               exact absurd ⟨e1, e2a⟩ h00
             · rename_i c3 rest3 hne1 hne2 heq
               injection heq with e1 e2
               subst e1
               subst e2
               split <;> rename_i h9 <;>
                 first
                   | rfl
                   | (exfalso
                      have hl9 : (c2 :: rest2).length = rest2.length + 1 :=
                        List.length_cons _ _
                      omega))

/-! ## Claims C5 and C6: policy evaluators -/

/-- C5: in direct-message context `is_whatsapp_user_allowed` follows the
claim's policy table — `dmPolicy`-or-`pairing`; `disabled` denies;
`open` and `pairing` allow; otherwise membership of the stringified DM
allowlist, with an absent or empty allowlist denying.  The group
parameters are irrelevant to the DM branch. -/
theorem C5_dm_policy_semantics (identifier : String)
    (account_config : WhatsAppAccountRuntimeConfig) (group_id : Option String)
    (group_config : Option WhatsAppGroupRuntimeConfig) :
    is_whatsapp_user_allowed identifier account_config false group_id group_config =
      dmAllowedClaimSpec account_config identifier := by
  unfold is_whatsapp_user_allowed dmAllowedClaimSpec
  simp only [Bool.false_eq_true, if_false]
  split_ifs with h1 h2 h3 h4 h5 h6 <;>
    first
      | rfl
      | (cases hl : account_config.allow_from with
          | none => simp_all
          | some l => cases l <;> simp_all)

/-- C6: `is_whatsapp_group_allowed` follows the claim's table —
`groupPolicy`-or-`allowlist`; `disabled` denies and `open` allows
regardless of anything else; an existing GroupConfig decides by its
enabled flag not being explicitly false, taking precedence over any
allowlist; otherwise membership of a present non-empty account-level
group allowlist; otherwise allow exactly when the policy is not the
literal string `allowlist`. -/
theorem C6_group_allowance_semantics (group_id : String)
    (account_config : WhatsAppAccountRuntimeConfig)
    (group_config : Option WhatsAppGroupRuntimeConfig) :
    is_whatsapp_group_allowed group_id account_config group_config =
      groupAllowedClaimSpec account_config group_id group_config := by
  unfold is_whatsapp_group_allowed groupAllowedClaimSpec
  cases group_config <;> cases hl : account_config.group_allow_from <;>
    simp only [hl] <;> rfl

/-! ## Claim C7: `normalize_whatsapp_target` fail-fast -/

/-- C7: any input whose prefix-stripped form contains `@` but matches
neither the group-JID pattern nor the user-JID/LID patterns normalizes
to `None`; the section-8 examples normalize as stated. -/
theorem C7_target_fail_fast :
    (∀ s : String,
      (strip_whatsapp_target_prefixes s).data.any (fun ch => ch = '@') = true →
      is_whatsapp_group_jid (strip_whatsapp_target_prefixes s) = false →
      is_whatsapp_user_target (strip_whatsapp_target_prefixes s) = false →
      normalize_whatsapp_target s = none) ∧
    normalize_whatsapp_target "41796666864:0@s.whatsapp.net" = some "+41796666864" ∧
    normalize_whatsapp_target "whatsapp:whatsapp:+1234567890" = some "+1234567890" ∧
    normalize_whatsapp_target "some@random@thing" = none := by
  refine ⟨fun s h1 h2 h3 => ?_, by decide, by decide, by decide⟩
  unfold normalize_whatsapp_target
  simp only []
  have hne : (strip_whatsapp_target_prefixes s).data.isEmpty = false := by
    cases hd : (strip_whatsapp_target_prefixes s).data with
    | nil => rw [hd] at h1; simp at h1
    | cons a t => simp
  simp [hne, h1, h2, h3]

/-- C7 witness: the fail-fast case applied at `"some@random@thing"`. -/
theorem C7_witness : normalize_whatsapp_target "some@random@thing" = none :=
  C7_target_fail_fast.1 "some@random@thing" (by decide) (by decide) (by decide)

/-! ## Claim C1: token resolution precedence -/

/-- C1: whenever the multi-account configuration validates,
`resolve_whatsapp_token` realizes exactly the claim's precedence:
account-level token first; global-layer and then environment token for
the literal default account only; otherwise the empty token with source
`none`.  A named account never reaches the global or environment
fallbacks. -/
theorem C1_token_resolution_precedence (runtime : AgentRuntime)
    (account_id : String) (mc : WhatsAppMultiAccountConfig)
    (h : get_multi_account_config runtime = .ok mc) :
    resolve_whatsapp_token runtime account_id =
      .ok (resolveTokenClaimSpec mc (runtime.get_setting "WHATSAPP_ACCESS_TOKEN")
            account_id) := by
  unfold resolve_whatsapp_token
  rw [h]
  simp only [Except.map]
  congr 1
  unfold resolveTokenCore resolveTokenClaimSpec
  simp only []
  split_ifs <;> first | rfl | simp_all

/-- C1 witness: the specification's example — global token `"base"`,
named account `business` with token `"biz"` — resolves `business` to
`("biz", config)`. -/
theorem C1_witness :
    get_multi_account_config exampleRuntimeBiz = .ok exampleMultiBiz ∧
    resolve_whatsapp_token exampleRuntimeBiz "business" = .ok ⟨"biz", .config⟩ := by
  refine ⟨by decide, ?_⟩
  rw [C1_token_resolution_precedence exampleRuntimeBiz "business" exampleMultiBiz
    (by decide)]
  decide

/-! ## Claim C10: the default fallbacks require the literal id -/

/-- C10: an account id that is not the literal string `default` (even
one that merely normalizes to it, like `" DEFAULT "`) never receives
the global-layer or environment token: with no usable account-level
token the resolution is the empty token with source `none`. -/
theorem C10_default_literal_only (runtime : AgentRuntime) (account_id : String)
    (mc : WhatsAppMultiAccountConfig)
    (h : get_multi_account_config runtime = .ok mc)
    (hnorm : normalize_account_id (some account_id) = DEFAULT_ACCOUNT_ID)
    (hlit : account_id ≠ DEFAULT_ACCOUNT_ID)
    (htok : pyStrip (((lookupAccountConfig mc account_id).bind
      (fun c => c.access_token)).getD "") = "") :
    resolve_whatsapp_token runtime account_id = .ok ⟨"", .none⟩ := by
  unfold resolve_whatsapp_token
  rw [h]
  simp only [Except.map]
  congr 1
  unfold resolveTokenCore
  simp only []
  rw [htok]
  simp [hlit]

/-- C10 witness: `" DEFAULT "` (which normalizes to `default`) gets no
token from a runtime carrying both a global-layer token and an
environment token. -/
theorem C10_witness :
    resolve_whatsapp_token defaultOnlyRuntime " DEFAULT " = .ok ⟨"", .none⟩ :=
  C10_default_literal_only defaultOnlyRuntime " DEFAULT " defaultOnlyMulti
    (by decide) (by decide) (by decide) (by decide)

/-! ## Claim C4: the configured invariant -/

/-- C4: a successfully resolved account is `configured` exactly when
both its resolved access token and its phone-number identifier are
non-empty after trimming (both are stored already trimmed, so trimming
them again changes nothing). -/
theorem C4_configured_invariant (runtime : AgentRuntime)
    (account_id : Option String) (acct : ResolvedWhatsAppAccount)
    (h : resolve_whatsapp_account runtime account_id = .ok acct) :
    acct.configured = true ↔
      (pyStrip acct.access_token ≠ "" ∧ pyStrip acct.phone_number_id ≠ "") := by
  unfold resolve_whatsapp_account at h
  simp only [bind, Except.bind] at h
  cases hmc : get_multi_account_config runtime with
  | error e => rw [hmc] at h; simp at h
  | ok mc =>
    rw [hmc] at h
    cases hm : merge_whatsapp_account_config runtime (normalize_account_id account_id) with
    | error e => rw [hm] at h; simp at h
    | ok merged =>
      rw [hm] at h
      injection h with h'
      subst h'
      simp only []
      rw [resolveTokenCore_token_stripped, pyStrip_idem]
      constructor
      · intro hc
        simpa using of_decide_eq_true hc
      · intro hc
        exact decide_eq_true (by simpa using hc)

/-- C4 witness: the resolved `business` account of the specification's
example is configured, with token and phone non-empty after trim. -/
theorem C4_witness : pyStrip exampleResolvedBiz.access_token ≠ "" ∧
    pyStrip exampleResolvedBiz.phone_number_id ≠ "" :=
  (C4_configured_invariant exampleRuntimeBiz (some "business") exampleResolvedBiz
    (by decide)).mp (by decide)

/-- A policy value accepted by `vPolicy` lies in its literal set. -/
theorem vPolicy_ok_mem {allowed : List String} {o : Option RawVal} {r : Option String}
    (h : vPolicy allowed o = .ok r) {s : String} (hs : r = some s) : s ∈ allowed := by
  cases o with
  | none => simp [vPolicy] at h; simp [← h] at hs
  | some v =>
    cases v <;> simp [vPolicy] at h
    · simp [← h] at hs
    · rename_i s'
      split at h
      · injection h with h'; rw [← h'] at hs; injection hs with h''; subst h''
        assumption
      · exact absurd h (by simp)

/-- Every element of a successful `mapExcept` run comes from a
successful element-wise validation. -/
theorem mapExcept_ok_mem {α β : Type} {f : α → Except String β} :
    ∀ {xs : List α} {ys : List β}, mapExcept f xs = .ok ys →
      ∀ y ∈ ys, ∃ x ∈ xs, f x = .ok y := by
  intro xs
  induction xs with
  | nil => intro ys h y hy; simp [mapExcept] at h; subst h; simp at hy
  | cons x xs ih =>
    intro ys h y hy
    unfold mapExcept at h
    simp only [bind, Except.bind] at h
    cases hx : f x with
    | error e => rw [hx] at h; simp at h
    | ok b =>
      rw [hx] at h
      cases hr : mapExcept f xs with
      | error e => rw [hr] at h; simp at h
      | ok bs =>
        rw [hr] at h
        injection h with h'
        subst h'
        rcases List.mem_cons.mp hy with rfl | hmem
        · exact ⟨x, List.mem_cons_self _ _, hx⟩
        · obtain ⟨x', hx', hf⟩ := ih hr y hmem
          exact ⟨x', List.mem_cons_of_mem _ hx', hf⟩

/-- A validated account configuration has policies inside the
`Literal` sets. -/
theorem vAccountCfg_policies {v : RawVal} {a : WhatsAppAccountRuntimeConfig}
    (h : vAccountCfg v = .ok a) : accountPoliciesOk a = true := by
  cases v <;> simp [vAccountCfg] at h
  rename_i xs
  simp only [bind, Except.bind] at h
  obtain ⟨name, h1, h⟩ := bind_ok h
  obtain ⟨enabled, h2, h⟩ := bind_ok h
  obtain ⟨tok, h3, h⟩ := bind_ok h
  obtain ⟨phone, h4, h⟩ := bind_ok h
  obtain ⟨biz, h5, h⟩ := bind_ok h
  obtain ⟨webhook, h6, h⟩ := bind_ok h
  obtain ⟨api, h7, h⟩ := bind_ok h
  obtain ⟨allow, h8, h⟩ := bind_ok h
  obtain ⟨gallow, h9, h⟩ := bind_ok h
  obtain ⟨dm, h10, h⟩ := bind_ok h
  obtain ⟨gp, h11, h⟩ := bind_ok h
  obtain ⟨media, h12, h⟩ := bind_ok h
  obtain ⟨tcl, h13, h⟩ := bind_ok h
  obtain ⟨groups, h14, h⟩ := bind_ok h
  injection h with h'
  subst h'
  unfold accountPoliciesOk
  rw [Bool.and_eq_true]
  constructor
  · cases hdm : dm with
    | none => rfl
    | some s =>
      have := vPolicy_ok_mem h10 hdm
      simpa using this
  · cases hgp : gp with
    | none => rfl
    | some s =>
      have := vPolicy_ok_mem h11 hgp
      simpa using this



/-- A validated multi-account configuration has every policy field
(top level and per account) inside its `Literal` set. -/
theorem get_multi_policies_ok {runtime : AgentRuntime} {mc : WhatsAppMultiAccountConfig}
    (h : get_multi_account_config runtime = .ok mc) : multiPoliciesOk mc = true := by
  unfold get_multi_account_config at h
  cases hc : runtime.character_whatsapp with
  | none => simp only [hc] at h; injection h with h'; subst h'; rfl
  | some wa =>
    simp only [hc] at h
    by_cases hw : wa.isEmpty
    · rw [if_pos hw] at h; injection h with h'; subst h'; rfl
    · rw [if_neg hw] at h
      simp only [bind, Except.bind] at h
      obtain ⟨enabled, h1, h⟩ := bind_ok h
      obtain ⟨tok, h2, h⟩ := bind_ok h
      obtain ⟨phone, h3, h⟩ := bind_ok h
      obtain ⟨biz, h4, h⟩ := bind_ok h
      obtain ⟨webhook, h5, h⟩ := bind_ok h
      obtain ⟨api, h6, h⟩ := bind_ok h
      obtain ⟨dm, h7, h⟩ := bind_ok h
      obtain ⟨gp, h8, h⟩ := bind_ok h
      obtain ⟨media, h9, h⟩ := bind_ok h
      obtain ⟨tcl, h10, h⟩ := bind_ok h
      obtain ⟨accounts, h11, h⟩ := bind_ok h
      obtain ⟨groups, h12, h⟩ := bind_ok h
      injection h with h'
      subst h'
      unfold multiPoliciesOk
      rw [Bool.and_eq_true, Bool.and_eq_true]
      refine ⟨⟨?_, ?_⟩, ?_⟩
      · cases hdm : dm with
        | none => rfl
        | some s => simpa using vPolicy_ok_mem h7 hdm
      · cases hgp : gp with
        | none => rfl
        | some s => simpa using vPolicy_ok_mem h8 hgp
      · cases haz : accounts with
        | none => rfl
        | some l =>
          rw [List.all_eq_true]
          intro p hp
          rw [haz] at h11
          cases hval : rawGet wa "accounts" with
          | none => rw [hval] at h11; simp [vAccounts] at h11
          | some v =>
            rw [hval] at h11
            cases v with
            | null => simp [vAccounts] at h11
            | str s => simp [vAccounts] at h11
            | int n => simp [vAccounts] at h11
            | bool b => simp [vAccounts] at h11
            | list xs2 => simp [vAccounts] at h11
            | dict pairs =>
              unfold vAccounts at h11
              simp only [bind, Except.bind] at h11
              obtain ⟨entries, hmap, h11⟩ := bind_ok h11
              injection h11 with h11'
              injection h11' with h11''
              subst h11''
              obtain ⟨x, hx, hfx⟩ := mapExcept_ok_mem hmap p hp
              cases hacc : vAccountCfg x.2 with
              | error e => rw [hacc] at hfx; simp [Except.map] at hfx
              | ok a =>
                rw [hacc] at hfx
                simp [Except.map] at hfx
                rw [← hfx]
                exact vAccountCfg_policies hacc



/-- Re-validation of a merged policy succeeds when the winning value is
recognized. -/
theorem vPolicyStrMerge_ok {allowed : List String} {o : Option String}
    (h : ∀ s, o = some s → allowed.contains s = true) :
    ∃ r, vPolicyStrMerge allowed o = .ok r := by
  cases o with
  | none => exact ⟨none, rfl⟩
  | some s =>
    have hm : s ∈ allowed := by simpa using h s rfl
    exact ⟨some s, by simp [vPolicyStrMerge, hm]⟩

/-- A looked-up account configuration is an entry of the accounts
mapping. -/
theorem lookupAccountConfig_mem {mc : WhatsAppMultiAccountConfig} {aid : String}
    {c : WhatsAppAccountRuntimeConfig} (h : lookupAccountConfig mc aid = some c) :
    ∃ l, mc.accounts = some l ∧ ∃ k, (k, c) ∈ l := by
  unfold lookupAccountConfig at h
  cases haz : mc.accounts with
  | none => rw [haz] at h; simp at h
  | some l =>
    refine ⟨l, rfl, ?_⟩
    simp only [haz] at h
    cases hd : assocGet l aid with
    | some d =>
      rw [hd] at h
      injection h with h'
      subst h'
      unfold assocGet at hd
      cases hf : l.find? (fun p => p.1 = aid) with
      | none => rw [hf] at hd; simp at hd
      | some p =>
        rw [hf] at hd
        injection hd with hd'
        subst hd'
        exact ⟨p.1, by simpa using List.mem_of_find?_eq_some hf⟩
    | none =>
      rw [hd] at h
      cases hf : l.find? (fun p =>
          normalize_account_id (some p.1) = normalize_account_id (some aid)) with
      | none => rw [hf] at h; simp at h
      | some p =>
        rw [hf] at h
        simp at h
        subst h
        exact ⟨p.1, by simpa using List.mem_of_find?_eq_some hf⟩

/-- The merge never fails when the character configuration validates
and the two policy environment settings are recognized or empty. -/
theorem merge_ok {runtime : AgentRuntime} {mc : WhatsAppMultiAccountConfig}
    (aid : String) (h1 : get_multi_account_config runtime = .ok mc)
    (h2 : runtimeEnvPoliciesOk runtime = true) :
    ∃ m, merge_whatsapp_account_config runtime aid = .ok m := by
  have hmp := get_multi_policies_ok h1
  unfold multiPoliciesOk at hmp
  rw [Bool.and_eq_true, Bool.and_eq_true] at hmp
  obtain ⟨⟨hdm0, hgp0⟩, hacc0⟩ := hmp
  unfold runtimeEnvPoliciesOk at h2
  rw [Bool.and_eq_true] at h2
  obtain ⟨henvdm, henvgp⟩ := h2
  -- validity of the looked-up account's policies
  have hAok : accountPoliciesOk ((lookupAccountConfig mc aid).getD {}) = true := by
    cases hl : lookupAccountConfig mc aid with
    | none => rfl
    | some c =>
      obtain ⟨l, hl2, k, hmem⟩ := lookupAccountConfig_mem hl
      have := List.all_eq_true.mp (by rw [hl2] at hacc0; exact hacc0) (k, c) hmem
      simpa using this
  unfold accountPoliciesOk at hAok
  rw [Bool.and_eq_true] at hAok
  obtain ⟨hAdm, hAgp⟩ := hAok
  -- winners are valid
  have windm : ∀ s, (((lookupAccountConfig mc aid).getD {}).dm_policy <|> mc.dm_policy <|>
      orNoneStr (runtime.get_setting "WHATSAPP_DM_POLICY")) = some s →
      dmPolicyLiterals.contains s = true := by
    intro s hs
    cases hA : ((lookupAccountConfig mc aid).getD {}).dm_policy with
    | some t =>
      rw [hA] at hs; simp at hs; subst hs
      rw [hA] at hAdm; simpa using hAdm
    | none =>
      rw [hA] at hs; simp at hs
      cases hB : mc.dm_policy with
      | some t =>
        rw [hB] at hs; simp at hs; subst hs
        rw [hB] at hdm0; simpa using hdm0
      | none =>
        rw [hB] at hs; simp at hs
        cases hE : runtime.get_setting "WHATSAPP_DM_POLICY" with
        | none => rw [hE] at hs; simp [orNoneStr] at hs
        | some str =>
          rw [hE] at hs
          rw [hE] at henvdm
          by_cases hstr : str = ""
          · subst hstr; simp [orNoneStr] at hs
          · rw [show orNoneStr (some str) = some str from by simp [orNoneStr, hstr]] at hs
            injection hs with hs'
            subst hs'
            simp only [envPolicyOk, Bool.or_eq_true] at henvdm
            rcases henvdm with hb | hb
            · exact absurd (by simpa using hb) hstr
            · exact hb
  have wingp : ∀ s, (((lookupAccountConfig mc aid).getD {}).group_policy <|> mc.group_policy <|>
      orNoneStr (runtime.get_setting "WHATSAPP_GROUP_POLICY")) = some s →
      groupPolicyLiterals.contains s = true := by
    intro s hs
    cases hA : ((lookupAccountConfig mc aid).getD {}).group_policy with
    | some t =>
      rw [hA] at hs; simp at hs; subst hs
      rw [hA] at hAgp; simpa using hAgp
    | none =>
      rw [hA] at hs; simp at hs
      cases hB : mc.group_policy with
      | some t =>
        rw [hB] at hs; simp at hs; subst hs
        rw [hB] at hgp0; simpa using hgp0
      | none =>
        rw [hB] at hs; simp at hs
        cases hE : runtime.get_setting "WHATSAPP_GROUP_POLICY" with
        | none => rw [hE] at hs; simp [orNoneStr] at hs
        | some str =>
          rw [hE] at hs
          rw [hE] at henvgp
          by_cases hstr : str = ""
          · subst hstr; simp [orNoneStr] at hs
          · rw [show orNoneStr (some str) = some str from by simp [orNoneStr, hstr]] at hs
            injection hs with hs'
            subst hs'
            simp only [envPolicyOk, Bool.or_eq_true] at henvgp
            rcases henvgp with hb | hb
            · exact absurd (by simpa using hb) hstr
            · exact hb
  obtain ⟨rdm, hrdm⟩ := vPolicyStrMerge_ok windm
  obtain ⟨rgp, hrgp⟩ := vPolicyStrMerge_ok wingp
  unfold merge_whatsapp_account_config
  rw [h1]
  simp only [bind, Except.bind]
  rw [hrdm, hrgp]
  exact ⟨_, rfl⟩



/-- C2 (counterexample): with the environment setting
`WHATSAPP_DM_POLICY = "bogus"` (outside the recognized policy values)
and no character configuration at all, the merge raises — the
`WhatsAppAccountRuntimeConfig` constructor rejects the merged
`dmPolicy` value, where the Python source raises
`pydantic.ValidationError`.  The claim's no-exception contract fails on
exactly the input it names. -/
theorem C2_no_exception_counterexample :
    merge_whatsapp_account_config badPolicyRuntime "default" =
      .error "policy field: unexpected value" := by decide

/-- C2 (amended): for every runtime whose character `whatsapp`
configuration validates and whose `WHATSAPP_DM_POLICY` /
`WHATSAPP_GROUP_POLICY` settings are absent, empty, or among the
recognized policy literals, the resolution functions
(`merge_whatsapp_account_config`, `resolve_whatsapp_account`,
`resolve_whatsapp_group_config`) return normally — absence of data
degrades to defaults and never raises. -/
theorem C2_no_exception_amended (runtime : AgentRuntime) (account_id group_id : String)
    (mc : WhatsAppMultiAccountConfig)
    (h1 : get_multi_account_config runtime = .ok mc)
    (h2 : runtimeEnvPoliciesOk runtime = true) :
    exceptOk (merge_whatsapp_account_config runtime account_id) = true ∧
    exceptOk (resolve_whatsapp_account runtime (some account_id)) = true ∧
    exceptOk (resolve_whatsapp_group_config runtime account_id group_id) = true := by
  obtain ⟨m, hm⟩ := merge_ok account_id h1 h2
  obtain ⟨m2, hm2⟩ := merge_ok (normalize_account_id (some account_id)) h1 h2
  refine ⟨by rw [hm]; rfl, ?_, ?_⟩
  · unfold resolve_whatsapp_account
    rw [h1]
    simp only [bind, Except.bind]
    rw [hm2]
    rfl
  · unfold resolve_whatsapp_group_config
    rw [h1]
    simp only [bind, Except.bind]
    split <;> first | rfl | (split <;> rfl)

/-- C2 witness: the amended no-exception contract applied to the
specification's example runtime. -/
theorem C2_witness :
    exceptOk (merge_whatsapp_account_config exampleRuntimeBiz "business") = true ∧
    exceptOk (resolve_whatsapp_account exampleRuntimeBiz (some "business")) = true ∧
    exceptOk (resolve_whatsapp_group_config exampleRuntimeBiz "business" "g1") = true :=
  C2_no_exception_amended exampleRuntimeBiz "business" "g1" exampleMultiBiz (by decide) (by decide)

/-- Whitespace-stripping does not touch a run of `'a'`s. -/
theorem dropWhile_replicate_a (n : Nat) :
    List.dropWhile pyIsSpace (List.replicate n 'a') = List.replicate n 'a' := by
  cases n with
  | zero => rfl
  | succ m =>
    rw [List.replicate_succ, List.dropWhile_cons]
    simp [pyIsSpace]

/-- `strip` leaves a run of `'a'`s unchanged. -/
theorem stripC_replicate_a (n : Nat) :
    stripC (List.replicate n 'a') = List.replicate n 'a' := by
  unfold stripC lstripC rstripC
  rw [dropWhile_replicate_a, List.reverse_replicate, dropWhile_replicate_a,
    List.reverse_replicate]

/-- `rfind` finds nothing in a run of `'a'`s when the pattern starts
with another character. -/
theorem pyRFindAux_replicate {c : Char} (sub' : List Char) (hc : c ≠ 'a') :
    ∀ (n : Nat) (i : Nat) (best : Option Nat),
      pyRFindAux (c :: sub') (List.replicate n 'a') i best = best := by
  intro n
  induction n with
  | zero => intro i best; simp [pyRFindAux]
  | succ m ih =>
    intro i best
    rw [List.replicate_succ]
    unfold pyRFindAux
    have hne : ('a' :: List.replicate m 'a').take (c :: sub').length ≠ c :: sub' := by
      rw [List.length_cons, List.take_succ_cons]
      intro hcon
      injection hcon with h1 h2
      exact hc h1.symm
    rw [if_neg hne]
    exact ih (i + 1) best

/-- `rfind` of a pattern not starting with `'a'` over a run of `'a'`s
is `-1`. -/
theorem pyRFind_replicate {c : Char} (sub' : List Char) (hc : c ≠ 'a') (n : Nat) :
    pyRFind (c :: sub') (List.replicate n 'a') = none :=
  pyRFindAux_replicate sub' hc n 0 none

/-- `_split_at_break_point` returns text that fits whole. -/
theorem split_fits {t : List Char} {limit : Nat} (h : t.length ≤ limit) :
    split_at_break_point t limit = (t, []) := by
  unfold split_at_break_point
  rw [if_pos h]

/-- On a run of `'a'`s longer than the limit, the split is the hard cut
at the limit. -/
theorem split_replicate {n limit : Nat} (h : limit < n) :
    split_at_break_point (List.replicate n 'a') limit =
      (List.replicate limit 'a', List.replicate (n - limit) 'a') := by
  unfold split_at_break_point
  rw [if_neg (by simpa using Nat.not_le_of_lt h)]
  have hsa : (List.replicate n 'a').take limit = List.replicate limit 'a' := by
    rw [List.take_replicate, Nat.min_eq_left (Nat.le_of_lt h)]
  simp only [hsa]
  rw [pyRFind_replicate _ (by decide) limit,
      pyRFind_replicate _ (by decide) limit,
      pyRFind_replicate _ (by decide) limit,
      pyRFind_replicate _ (by decide) limit,
      pyRFind_replicate _ (by decide) limit,
      pyRFind_replicate _ (by decide) limit]
  simp only [hitAfterHalf, maxFound, Option.bind]
  rw [List.drop_replicate]

/-- The chunking loop stops immediately on empty remaining text. -/
theorem chunkLoop_nil (limit fuel : Nat) : chunkLoop limit fuel [] = some [] := by
  cases fuel <;> rfl

/-- One unfolding step of the chunking loop on non-empty remaining
text. -/
theorem chunkLoop_step (limit fuel : Nat) (rem : List Char)
    (hne : rem.isEmpty = false) :
    chunkLoop limit (fuel + 1) rem =
      match chunkLoop limit fuel (split_at_break_point rem limit).2 with
      | Option.none => none
      | some rest =>
        some (if (split_at_break_point rem limit).1.isEmpty then rest
              else (split_at_break_point rem limit).1 :: rest) := by
  conv_lhs => unfold chunkLoop
  rw [if_neg (by simp [hne])]



/-- `strip` leaves a run of `'a'`s unchanged (string level). -/
theorem pyStrip_replicate_a (n : Nat) :
    pyStrip ⟨List.replicate n 'a'⟩ = ⟨List.replicate n 'a'⟩ := by
  show (⟨stripC (List.replicate n 'a')⟩ : String) = _
  rw [stripC_replicate_a]

/-- A non-trivial run of `'a'`s is not empty. -/
theorem replicate_a_not_isEmpty (n : Nat) (h : n ≠ 0) :
    (List.replicate n 'a').isEmpty = false := by
  cases n with
  | zero => exact absurd rfl h
  | succ m => rw [List.replicate_succ]; rfl

/-- Length of a string made of `n` copies of `'a'`. -/
theorem strMk_replicate_length (n : Nat) :
    (⟨List.replicate n 'a'⟩ : String).length = n := by
  show (List.replicate n 'a').length = n
  rw [List.length_replicate]

/-- 4096 `'a'`s fit in one chunk at the default limit. -/
theorem chunk4096 :
    chunk_whatsapp_text ⟨List.replicate 4096 'a'⟩ (some 4096) =
      some [⟨List.replicate 4096 'a'⟩] := by
  unfold chunk_whatsapp_text
  rw [pyStrip_replicate_a]
  rw [Option.getD_some]
  rw [if_neg (by
    show ¬((⟨List.replicate 4096 'a'⟩ : String).data.isEmpty = true)
    rw [show (⟨List.replicate 4096 'a'⟩ : String).data = List.replicate 4096 'a' from rfl,
      replicate_a_not_isEmpty 4096 (by norm_num)]
    decide)]
  rw [if_pos (by rw [strMk_replicate_length])]

/-- The loop consumes a single trailing `'a'` in one step. -/
theorem chunkLoop_one_a :
    chunkLoop 4096 4096 (List.replicate 1 'a') = some [['a']] := by
  show chunkLoop 4096 (4095 + 1) (List.replicate 1 'a') = some [['a']]
  rw [chunkLoop_step _ _ _ (replicate_a_not_isEmpty 1 (by norm_num))]
  rw [split_fits (by rw [List.length_replicate]; norm_num)]
  rw [chunkLoop_nil]
  simp only []
  rw [if_neg (by rw [replicate_a_not_isEmpty 1 (by norm_num)]; decide)]
  rw [show List.replicate 1 'a' = ['a'] from rfl]

/-- On 4097 `'a'`s with limit 4096 the loop hard-cuts once and then
consumes the single remaining character. -/
theorem chunkLoop_4097_a :
    chunkLoop 4096 4097 (List.replicate 4097 'a') =
      some [List.replicate 4096 'a', ['a']] := by
  show chunkLoop 4096 (4096 + 1) (List.replicate 4097 'a') = _
  rw [chunkLoop_step _ _ _ (replicate_a_not_isEmpty 4097 (by norm_num))]
  rw [split_replicate (show (4096 : Nat) < 4097 by norm_num)]
  rw [show (4097 - 4096 : Nat) = 1 from rfl]
  rw [chunkLoop_one_a]
  simp only []
  rw [if_neg (by rw [replicate_a_not_isEmpty 4096 (by norm_num)]; decide)]

/-- 4097 `'a'`s split into exactly two chunks at limit 4096. -/
theorem chunk4097 :
    chunk_whatsapp_text ⟨List.replicate 4097 'a'⟩ (some 4096) =
      some [⟨List.replicate 4096 'a'⟩, "a"] := by
  unfold chunk_whatsapp_text
  rw [pyStrip_replicate_a]
  rw [Option.getD_some]
  rw [if_neg (by
    show ¬((⟨List.replicate 4097 'a'⟩ : String).data.isEmpty = true)
    rw [show (⟨List.replicate 4097 'a'⟩ : String).data = List.replicate 4097 'a' from rfl,
      replicate_a_not_isEmpty 4097 (by norm_num)]
    decide)]
  rw [if_neg (by rw [strMk_replicate_length]; norm_num)]
  rw [strMk_replicate_length,
    show (⟨List.replicate 4097 'a'⟩ : String).data = List.replicate 4097 'a' from rfl]
  rw [chunkLoop_4097_a]
  simp only []
  rw [List.filter_cons, List.filter_cons, List.filter_nil]
  rw [if_pos (by rw [replicate_a_not_isEmpty 4096 (by norm_num)]; decide)]
  rw [if_pos (by decide)]
  rw [List.map_cons, List.map_cons, List.map_nil]



/-- Any index reported by the `rfind` scan leaves room for the pattern
inside the scanned text. -/
theorem pyRFindAux_le (sub : List Char) :
    ∀ (l : List Char) (i : Nat) (best : Option Nat),
      (∀ j, best = some j → j + sub.length ≤ i + l.length) →
      ∀ j, pyRFindAux sub l i best = some j → j + sub.length ≤ i + l.length := by
  intro l
  induction l with
  | nil =>
    intro i best hbest j h
    unfold pyRFindAux at h
    split at h
    · injection h with h'
      subst h'
      rename_i hsub
      simp [List.isEmpty_iff.mp hsub]
    · exact hbest j h
  | cons c t ih =>
    intro i best hbest j h
    unfold pyRFindAux at h
    have hinv : ∀ j', (if (c :: t).take sub.length = sub then some i else best) = some j' →
        j' + sub.length ≤ (i + 1) + t.length := by
      intro j' hj'
      split at hj'
      · injection hj' with hj''
        subst hj''
        rename_i htake
        have hl := congrArg List.length htake
        rw [List.length_take] at hl
        have h2 : sub.length ≤ (c :: t).length := hl ▸ Nat.min_le_right _ _
        rw [List.length_cons] at h2
        omega
      · have h2 := hbest j' hj'
        rw [List.length_cons] at h2
        omega
    have hstep := ih (i + 1) _ hinv j h
    rw [List.length_cons]
    omega

/-- `rfind`'s result index plus the pattern length is bounded by the
text length. -/
theorem pyRFind_le {sub s : List Char} {j : Nat} (h : pyRFind sub s = some j) :
    j + sub.length ≤ s.length := by
  have := pyRFindAux_le sub s 0 none (by intro j' hj'; cases hj') j h
  simpa using this

/-- A break point accepted by the `idx > half` test comes from the
underlying `rfind` and lies beyond the midpoint. -/
theorem hitAfterHalf_some {o : Option Nat} {half idx : Nat}
    (h : hitAfterHalf o half = some idx) : o = some idx ∧ half < idx := by
  cases o with
  | none => cases h
  | some k =>
    unfold hitAfterHalf at h
    simp only [Option.bind] at h
    split at h
    · injection h with h'
      subst h'
      exact ⟨rfl, by assumption⟩
    · cases h

/-- The maximum of two `rfind` results is one of them. -/
theorem maxFound_cases {a b : Option Nat} {j : Nat} (h : maxFound a b = some j) :
    a = some j ∨ b = some j := by
  cases a with
  | none => right; simpa [maxFound] using h
  | some x =>
    cases b with
    | none => left; simpa [maxFound] using h
    | some y =>
      unfold maxFound at h
      injection h with h'
      rcases Nat.le_total x y with hxy | hxy
      · right; rw [← h', Nat.max_eq_right hxy]
      · left; rw [← h', Nat.max_eq_left hxy]

/-- Left-stripping never lengthens. -/
theorem lstripC_length_le (l : List Char) : (lstripC l).length ≤ l.length :=
  ((List.dropWhile_suffix pyIsSpace).sublist).length_le

/-- Right-stripping never lengthens. -/
theorem rstripC_length_le (l : List Char) : (rstripC l).length ≤ l.length := by
  unfold rstripC
  rw [List.length_reverse]
  have := ((List.dropWhile_suffix (l := l.reverse) pyIsSpace).sublist).length_le
  rw [List.length_reverse] at this
  exact this



/-- For a positive limit, the chunk produced by a split step never
exceeds the limit. -/
theorem split_chunk_le {limit : Nat} (hl : 1 ≤ limit) (t : List Char) :
    (split_at_break_point t limit).1.length ≤ limit := by
  unfold split_at_break_point
  split
  · rename_i hfit
    simpa using hfit
  · rename_i hfit
    simp only []
    have hsa : (t.take limit).length = limit := by
      rw [List.length_take]; omega
    have htk : ∀ k : Nat, (rstripC (t.take k)).length ≤ k := by
      intro k
      calc (rstripC (t.take k)).length ≤ (t.take k).length := rstripC_length_le _
        _ ≤ k := by rw [List.length_take]; omega
    split
    · rename_i idx heq
      obtain ⟨hfind, hhalf⟩ := hitAfterHalf_some heq
      have hb := pyRFind_le hfind
      exact le_trans (htk idx) (by rw [hsa] at hb; simp at hb; omega)
    · split
      · rename_i idx heq
        obtain ⟨hfind, hhalf⟩ := hitAfterHalf_some heq
        have hb := pyRFind_le hfind
        exact le_trans (htk idx) (by rw [hsa] at hb; simp at hb; omega)
      · split
        · rename_i idx heq
          obtain ⟨hfind, hhalf⟩ := hitAfterHalf_some heq
          have hb : idx + 2 ≤ limit := by
            rcases maxFound_cases hfind with h1 | h1
            · have := pyRFind_le h1; rw [hsa] at this; simpa using this
            · rcases maxFound_cases h1 with h2 | h2 <;>
                (have h3 := pyRFind_le h2; rw [hsa] at h3; simpa using h3)
          exact le_trans (htk (idx + 1)) (by omega)
        · split
          · rename_i idx heq
            obtain ⟨hfind, hhalf⟩ := hitAfterHalf_some heq
            have hb := pyRFind_le hfind
            exact le_trans (htk idx) (by rw [hsa] at hb; simp at hb; omega)
          · simp only []
            exact hsa.le

/-- For a positive limit, a split step strictly shrinks non-empty
remaining text. -/
theorem split_remainder_lt {limit : Nat} (hl : 1 ≤ limit) {t : List Char} (ht : t ≠ []) :
    (split_at_break_point t limit).2.length < t.length := by
  have htpos : 0 < t.length := List.length_pos.mpr ht
  unfold split_at_break_point
  split
  · rename_i hfit
    simp only []
    simpa using htpos
  · rename_i hfit
    simp only []
    have hdk : ∀ k : Nat, 0 < k → (lstripC (t.drop k)).length < t.length := by
      intro k hk
      calc (lstripC (t.drop k)).length ≤ (t.drop k).length := lstripC_length_le _
        _ = t.length - k := by rw [List.length_drop]
        _ < t.length := Nat.sub_lt htpos hk
    split
    · exact hdk _ (by omega)
    · split
      · exact hdk _ (by omega)
      · split
        · exact hdk _ (by omega)
        · split
          · exact hdk _ (by omega)
          · rw [List.length_drop]
            exact Nat.sub_lt htpos (by omega)

/-- For a positive limit the loop terminates within `length` steps and
every collected chunk is non-empty and within the limit. -/
theorem chunkLoop_ok {limit : Nat} (hl : 1 ≤ limit) :
    ∀ (fuel : Nat) (rem : List Char), rem.length ≤ fuel →
      ∃ cs, chunkLoop limit fuel rem = some cs ∧
        ∀ c ∈ cs, c ≠ [] ∧ c.length ≤ limit := by
  intro fuel
  induction fuel with
  | zero =>
    intro rem hrem
    have h0 : rem = [] := List.eq_nil_of_length_eq_zero (by omega)
    subst h0
    exact ⟨[], rfl, by simp⟩
  | succ f ih =>
    intro rem hrem
    by_cases hre : rem.isEmpty
    · refine ⟨[], ?_, by simp⟩
      unfold chunkLoop
      rw [if_pos hre]
    · have hne : rem ≠ [] := by simpa [List.isEmpty_iff] using hre
      have hlt : (split_at_break_point rem limit).2.length < rem.length :=
        split_remainder_lt hl hne
      obtain ⟨cs, hcs, hmem⟩ := ih (split_at_break_point rem limit).2 (by omega)
      rw [chunkLoop_step _ _ _ (by simpa using hre)]
      rw [hcs]
      by_cases hc1 : (split_at_break_point rem limit).1.isEmpty
      · exact ⟨cs, by simp [hc1], hmem⟩
      · refine ⟨(split_at_break_point rem limit).1 :: cs, by simp [hc1], ?_⟩
        intro c hc
        rcases List.mem_cons.mp hc with rfl | hmemc
        · exact ⟨by simpa [List.isEmpty_iff] using hc1, split_chunk_le hl rem⟩
        · exact hmem c hmemc



/-- C8 (amended): for every text and positive limit, empty or
whitespace-only input gives the empty list; a trimmed text that fits is
returned as a singleton; and every returned chunk is non-empty and no
longer than the limit.  (The claim's further condition that every chunk
equals its own trim is dropped: it fails after a hard cut, see the
counterexample.)  With limit 4096, 4096 `'a'`s give one chunk and 4097
`'a'`s give exactly the two chunks of lengths 4096 and 1. -/
theorem C8_chunk_shape_amended :
    (∀ (text : String) (limit : Nat), 1 ≤ limit →
      (pyStrip text = "" → chunk_whatsapp_text text (some limit) = some []) ∧
      (pyStrip text ≠ "" → (pyStrip text).length ≤ limit →
        chunk_whatsapp_text text (some limit) = some [pyStrip text]) ∧
      (∀ cs, chunk_whatsapp_text text (some limit) = some cs →
        ∀ c ∈ cs, c ≠ "" ∧ c.length ≤ limit)) ∧
    chunk_whatsapp_text ⟨List.replicate 4096 'a'⟩ (some 4096) =
      some [⟨List.replicate 4096 'a'⟩] ∧
    chunk_whatsapp_text ⟨List.replicate 4097 'a'⟩ (some 4096) =
      some [⟨List.replicate 4096 'a'⟩, "a"] := by
  refine ⟨?_, chunk4096, chunk4097⟩
  intro text limit hl
  refine ⟨?_, ?_, ?_⟩
  · intro he
    unfold chunk_whatsapp_text
    rw [Option.getD_some]
    rw [if_pos (by rw [he]; rfl)]
  · intro hne hfit
    unfold chunk_whatsapp_text
    rw [Option.getD_some]
    rw [if_neg (by
      intro hemp
      exact hne (String.ext (List.isEmpty_iff.mp hemp)))]
    rw [if_pos hfit]
  · intro cs hcs c hc
    unfold chunk_whatsapp_text at hcs
    rw [Option.getD_some] at hcs
    by_cases hempty : (pyStrip text).data.isEmpty
    · rw [if_pos hempty] at hcs
      injection hcs with hcs'
      subst hcs'
      simp at hc
    · rw [if_neg hempty] at hcs
      by_cases hfit : (pyStrip text).length ≤ limit
      · rw [if_pos hfit] at hcs
        injection hcs with hcs'
        subst hcs'
        rcases List.mem_singleton.mp hc with rfl
        refine ⟨fun hcon => ?_, hfit⟩
        rw [hcon] at hempty
        exact hempty rfl
      · rw [if_neg hfit] at hcs
        obtain ⟨cs0, hcs0, hmem0⟩ :=
          chunkLoop_ok hl ((pyStrip text).length) (pyStrip text).data (le_refl _)
        rw [hcs0] at hcs
        simp only [] at hcs
        injection hcs with hcs'
        subst hcs'
        obtain ⟨l, hlmem, rfl⟩ := List.mem_map.mp hc
        obtain ⟨hl0, _⟩ := List.mem_filter.mp hlmem
        obtain ⟨hlnil, hllen⟩ := hmem0 l hl0
        constructor
        · intro hcon
          have hdata := congrArg String.data hcon
          exact hlnil hdata
        · exact hllen

/-- C9 (amended): for every *positive* limit, each split step strictly
shrinks non-empty remaining text and the chunking loop terminates on
every input.  (For limit 0 the loop does not terminate, see the
counterexample.) -/
theorem C9_chunk_termination_amended (limit : Nat) (h : 1 ≤ limit) :
    (∀ rem : List Char, rem ≠ [] →
      (split_at_break_point rem limit).2.length < rem.length) ∧
    (∀ text : String, (chunk_whatsapp_text text (some limit)).isSome = true) := by
  constructor
  · intro rem hrem
    exact split_remainder_lt h hrem
  · intro text
    unfold chunk_whatsapp_text
    rw [Option.getD_some]
    by_cases hempty : (pyStrip text).data.isEmpty
    · rw [if_pos hempty]; rfl
    · rw [if_neg hempty]
      by_cases hfit : (pyStrip text).length ≤ limit
      · rw [if_pos hfit]; rfl
      · rw [if_neg hfit]
        obtain ⟨cs0, hcs0, _⟩ :=
          chunkLoop_ok h ((pyStrip text).length) (pyStrip text).data (le_refl _)
        rw [hcs0]
        rfl

/-- C8 (counterexample): with the positive limit 4, the input
`"aaaa b"` yields the chunks `["aaaa", " b"]` — the second chunk keeps
the leading space carried over by the hard cut, so it is not equal to
its own trim, contradicting the claim's condition that every returned
chunk is equal to its own trim. -/
theorem C8_chunk_shape_counterexample :
    chunk_whatsapp_text "aaaa b" (some 4) = some ["aaaa", " b"] ∧
    pyStrip " b" ≠ " b" := by decide

/-- C9 (counterexample): at limit 0 the split step returns the input
unchanged as remainder (no strict shrink), and the chunking loop on
`"ab"` never terminates (the fuel-indexed loop yields `none`). -/
theorem C9_chunk_termination_counterexample :
    (split_at_break_point "ab".data 0).2 = "ab".data ∧
    chunk_whatsapp_text "ab" (some 0) = Option.none := by decide

/-- C8 witness: the amended chunk-shape facts applied to the concrete
run on the string `aaaa b` with limit 4. -/
theorem C8_witness : (" b" : String) ≠ "" ∧ (" b" : String).length ≤ 4 :=
  (C8_chunk_shape_amended.1 "aaaa b" 4 (by decide)).2.2 ["aaaa", " b"] (by decide) " b" (by decide)

/-- C9 witness: termination applied at limit 1 on the string `ab`. -/
theorem C9_witness : (chunk_whatsapp_text "ab" (some 1)).isSome = true :=
  (C9_chunk_termination_amended 1 (by decide)).2 "ab"

end WhatsApp
